import Mathlib

/-!
Verification development for the `stream-tester` repository.

Shallow embedding of:
* the geographic distance and serf-node selection code of
  `cmd/recordtester/recordtester.go` (`getDistance`, `findInSlice`,
  `getClosestSerfNodes`, the `exit` closure);
* the VOD tester orchestration of
  `internal/app/vodtester/vodtester_app.go` (`Start`, `checkPlayback`,
  `patchURLHost`).

Modelling conventions:
* `float64` arithmetic is idealized as real arithmetic over `ℝ`
  (no rounding, no NaN/Inf corner values);
* external library functions (`math.Atan2`, `strconv.ParseFloat`,
  `sort.Slice`, `net/url`, `errgroup`) are modelled from their documented
  behaviour, with the simplifications noted at each definition;
* goroutine scheduling is modelled by quantifying over the completion
  order of the concurrent phases.
-/

open Real
open scoped List

namespace RT

/-- Go's `math.Atan2 y x` for finite arguments.  Signed zeros collapse to `0`;
the result for `y = 0, x < 0` is `π` (Go's `Atan2(+0, x<0)` case).  In this
development it is only ever applied to non-negative square roots. -/
noncomputable def mathAtan2 (y x : ℝ) : ℝ :=
  if 0 < x then arctan (y / x)
  else if x < 0 then
    (if 0 ≤ y then arctan (y / x) + π else arctan (y / x) - π)
  else
    (if 0 < y then π / 2 else if y < 0 then -(π / 2) else 0)

/-- `recordtester.go` line 63: Earth's radius in kilometers. -/
def earthRadius : ℝ := 6371

/-- The intermediate value `a` of `recordtester.go` lines 74–76, with the
degree→radian conversion of lines 68–71 substituted in.  Note that the source
computes `sin(Δ)·sin(Δ)` — the half-angle `Δ/2` of the haversine formula does
not appear anywhere in the source. -/
noncomputable def havA (lat1 lon1 lat2 lon2 : ℝ) : ℝ :=
  sin (lat2 * π / 180 - lat1 * π / 180) * sin (lat2 * π / 180 - lat1 * π / 180) +
    cos (lat1 * π / 180) * cos (lat2 * π / 180) *
      sin (lon2 * π / 180 - lon1 * π / 180) * sin (lon2 * π / 180 - lon1 * π / 180)

/-- `getDistance`, `recordtester.go` lines 66–82. -/
noncomputable def getDistance (lat1 lon1 lat2 lon2 : ℝ) : ℝ :=
  earthRadius *
    (2 * mathAtan2 (Real.sqrt (havA lat1 lon1 lat2 lon2))
      (Real.sqrt (1 - havA lat1 lon1 lat2 lon2)))

/-- The value `a` of the great-circle (haversine) formula exactly as the SPEC
(§4.3) states it: `a = sin²(Δlat/2) + cos(lat1)·cos(lat2)·sin²(Δlon/2)` with
the points converted to radians.  This definition follows the spec's words and
is used only to compare the code against the spec. -/
noncomputable def havASpec (lat1 lon1 lat2 lon2 : ℝ) : ℝ :=
  sin ((lat2 * π / 180 - lat1 * π / 180) / 2) * sin ((lat2 * π / 180 - lat1 * π / 180) / 2) +
    cos (lat1 * π / 180) * cos (lat2 * π / 180) *
      sin ((lon2 * π / 180 - lon1 * π / 180) / 2) * sin ((lon2 * π / 180 - lon1 * π / 180) / 2)

/-- The distance of the SPEC's haversine formula:
`distance = 2·R·atan2(√a, √(1−a))` with `R = 6371`. -/
noncomputable def getDistanceSpec (lat1 lon1 lat2 lon2 : ℝ) : ℝ :=
  earthRadius *
    (2 * mathAtan2 (Real.sqrt (havASpec lat1 lon1 lat2 lon2))
      (Real.sqrt (1 - havASpec lat1 lon1 lat2 lon2)))

lemma mathAtan2_zero_one : mathAtan2 0 1 = 0 := by
  simp [mathAtan2]

/-- On the first quadrant `atan2(sin θ, cos θ) = θ` (as square roots of the
squares). -/
lemma mathAtan2_sin_sq {θ : ℝ} (h0 : 0 ≤ θ) (h1 : θ < π / 2) :
    mathAtan2 (Real.sqrt (sin θ * sin θ)) (Real.sqrt (1 - sin θ * sin θ)) = θ := by
  have hpi := pi_pos
  have hs : 0 ≤ sin θ :=
    sin_nonneg_of_nonneg_of_le_pi h0 (by linarith)
  have hc : 0 < cos θ := cos_pos_of_mem_Ioo ⟨by linarith, h1⟩
  have h1a : 1 - sin θ * sin θ = cos θ * cos θ := by
    linear_combination -sin_sq_add_cos_sq θ
  rw [h1a, Real.sqrt_mul_self hs, Real.sqrt_mul_self hc.le, mathAtan2, if_pos hc,
    ← tan_eq_sin_div_cos]
  exact arctan_tan (by linarith) h1

lemma havA_self (lat lon : ℝ) : havA lat lon lat lon = 0 := by
  simp [havA]

lemma getDistance_self (lat lon : ℝ) : getDistance lat lon lat lon = 0 := by
  rw [getDistance, havA_self]
  norm_num [mathAtan2_zero_one]

lemma sin_sub_sq_comm (a b : ℝ) : sin (a - b) * sin (a - b) = sin (b - a) * sin (b - a) := by
  rw [show b - a = -(a - b) by ring, Real.sin_neg]
  ring

lemma havA_comm (lat1 lon1 lat2 lon2 : ℝ) :
    havA lat1 lon1 lat2 lon2 = havA lat2 lon2 lat1 lon1 := by
  unfold havA
  rw [show lat1 * π / 180 - lat2 * π / 180 = -(lat2 * π / 180 - lat1 * π / 180) by ring,
    show lon1 * π / 180 - lon2 * π / 180 = -(lon2 * π / 180 - lon1 * π / 180) by ring,
    Real.sin_neg (lat2 * π / 180 - lat1 * π / 180),
    Real.sin_neg (lon2 * π / 180 - lon1 * π / 180)]
  ring

lemma getDistance_comm (lat1 lon1 lat2 lon2 : ℝ) :
    getDistance lat1 lon1 lat2 lon2 = getDistance lat2 lon2 lat1 lon1 := by
  rw [getDistance, getDistance, havA_comm]

lemma havA_lat_eval (x : ℝ) : havA 0 0 x 0 = sin (x * π / 180) * sin (x * π / 180) := by
  simp [havA]

lemma havA_lon_eval (x : ℝ) : havA 0 0 0 x = sin (x * π / 180) * sin (x * π / 180) := by
  simp [havA]

/-- What the code returns for two points `x` degrees of latitude apart on the
same meridian through the origin (for `0 ≤ x < 90`): `R·2·(x·π/180)` — i.e.
TWICE the true great-circle distance `R·(x·π/180)`. -/
lemma getDistance_lat_eval {x : ℝ} (h0 : 0 ≤ x) (h1 : x < 90) :
    getDistance 0 0 x 0 = earthRadius * (2 * (x * π / 180)) := by
  have hpi := pi_pos
  have hθ0 : 0 ≤ x * π / 180 := by positivity
  have hθ1 : x * π / 180 < π / 2 := by nlinarith
  rw [getDistance, havA_lat_eval, mathAtan2_sin_sq hθ0 hθ1]

/-- Same, for two points `x` degrees of longitude apart on the equator. -/
lemma getDistance_lon_eval {x : ℝ} (h0 : 0 ≤ x) (h1 : x < 90) :
    getDistance 0 0 0 x = earthRadius * (2 * (x * π / 180)) := by
  have hpi := pi_pos
  have hθ0 : 0 ≤ x * π / 180 := by positivity
  have hθ1 : x * π / 180 < π / 2 := by nlinarith
  rw [getDistance, havA_lon_eval, mathAtan2_sin_sq hθ0 hθ1]

lemma havASpec_lat_eval (x : ℝ) :
    havASpec 0 0 x 0 = sin (x * π / 180 / 2) * sin (x * π / 180 / 2) := by
  simp [havASpec]

/-- The SPEC's formula gives `R·(x·π/180)` for the same pair of points. -/
lemma getDistanceSpec_lat_eval {x : ℝ} (h0 : 0 ≤ x) (h1 : x < 180) :
    getDistanceSpec 0 0 x 0 = earthRadius * (x * π / 180) := by
  have hpi := pi_pos
  have hθ0 : 0 ≤ x * π / 180 / 2 := by positivity
  have hθ1 : x * π / 180 / 2 < π / 2 := by nlinarith
  rw [getDistanceSpec, havASpec_lat_eval, mathAtan2_sin_sq hθ0 hθ1]
  ring

/-- C1 (code bug): the source's `getDistance` drops the half-angle of the
haversine formula (`sin²(Δ)` instead of `sin²(Δ/2)`, lines 74–76 of
`recordtester.go`, despite the `haversine formula` comment on line 73).  For
two points 1 degree of latitude apart at the equator the code returns
`6371·π/90 ≈ 222.4 km`, about double the claimed `≈ 111 km (±1%)`, while the
formula as the spec states it returns `6371·π/180 ≈ 111.2 km`, inside the
claimed band. -/
theorem claim_C1_getDistance_doubles_haversine :
    getDistance 0 0 1 0 = 6371 * π / 90 ∧
    (222 < getDistance 0 0 1 0 ∧ getDistance 0 0 1 0 < 223) ∧
    getDistanceSpec 0 0 1 0 = 6371 * π / 180 ∧
    (110 < getDistanceSpec 0 0 1 0 ∧ getDistanceSpec 0 0 1 0 < 112) := by
  have h1 : getDistance 0 0 1 0 = 6371 * π / 90 := by
    rw [getDistance_lat_eval (by norm_num) (by norm_num), earthRadius]
    ring
  have h2 : getDistanceSpec 0 0 1 0 = 6371 * π / 180 := by
    rw [getDistanceSpec_lat_eval (by norm_num) (by norm_num), earthRadius]
    ring
  have hlo := pi_gt_d6
  have hhi := pi_lt_d2
  exact ⟨h1, ⟨by rw [h1]; nlinarith, by rw [h1]; nlinarith⟩, h2,
    by rw [h2]; nlinarith, by rw [h2]; nlinarith⟩

/-- C7: `getDistance` vanishes on equal points and is symmetric in its two
points (real-arithmetic idealization of the float64 code). -/
theorem claim_C7_getDistance_refl_and_symm :
    (∀ lat lon : ℝ, getDistance lat lon lat lon = 0) ∧
    (∀ lat1 lon1 lat2 lon2 : ℝ,
      getDistance lat1 lon1 lat2 lon2 = getDistance lat2 lon2 lat1 lon1) :=
  ⟨getDistance_self, getDistance_comm⟩

/-! ### Serf member selection (`getClosestSerfNodes`) -/

/-- Decimal digits of a numeral, most significant first, as a natural number. -/
def digitsToNat (l : List Char) : ℕ :=
  l.foldl (fun n c => n * 10 + (c.toNat - '0'.toNat)) 0

/-- Model of Go's `strconv.ParseFloat` (external standard library): `none` on a
syntax error, otherwise the parsed value, represented exactly as a pair
`(n, d)` denoting the decimal value `n / 10^d` (float64 rounding is ignored).
The model covers plain decimal numerals `[+-]digits[.digits]` (at least one
digit); exponents, hex floats and the `Inf`/`NaN` literals are outside the
model. -/
def parseFloat (s : String) : Option (ℤ × ℕ) :=
  let l := s.data
  let sign : ℤ × List Char :=
    match l with
    | '+' :: rest => (1, rest)
    | '-' :: rest => (-1, rest)
    | _ => (1, l)
  let intPart := sign.2.takeWhile Char.isDigit
  let rest := sign.2.dropWhile Char.isDigit
  match rest with
  | [] => if intPart.isEmpty then none else some (sign.1 * digitsToNat intPart, 0)
  | '.' :: frac =>
    if frac.all Char.isDigit && (!intPart.isEmpty || !frac.isEmpty) then
      some (sign.1 * (digitsToNat intPart * 10 ^ frac.length + digitsToNat frac), frac.length)
    else none
  | _ => none

/-- The real value of a parse result; `0` when the parse failed, matching Go's
`ParseFloat`, which returns `0` together with the error that line 118/119
ignores. -/
noncomputable def parsedVal : Option (ℤ × ℕ) → ℝ
  | none => 0
  | some (n, d) => (n : ℝ) / 10 ^ d

/-- A serf member (`serfClient.Member`, external).  Only the member's name and
the two tags that `getMemberLocation` reads are modelled; a tag missing from
the Go `Tags` map reads as `""`. -/
structure Member where
  Name : String
  latitude : String
  longitude : String
deriving DecidableEq, Repr

/-- `getMemberLocation`, `recordtester.go` lines 101–103. -/
def getMemberLocation (m : Member) : String × String :=
  (m.latitude, m.longitude)

/-- `geolocateSerfNodes`, `recordtester.go` lines 40–46. -/
structure GeolocateSerfNodes where
  Key : String
  Latitude : ℝ
  Longitude : ℝ
  Distance : ℝ
  Nodes : List Member

/-- The `locationKey` closure of `getClosestSerfNodes` (line 106–108):
`fmt.Sprintf("%s-%s", x, y)`. -/
def locationKey (x y : String) : String :=
  x ++ "-" ++ y

/-- The location key of a member. -/
def keyOf (m : Member) : String :=
  locationKey (getMemberLocation m).1 (getMemberLocation m).2

/-- `findInSlice`, `recordtester.go` lines 53–60: index of the first group with
the given key, `-1` if absent. -/
def findInSlice : List GeolocateSerfNodes → String → ℤ
  | [], _ => -1
  | v :: rest, key =>
    if v.Key = key then 0
    else
      let r := findInSlice rest key
      if r = -1 then -1 else r + 1

/-- The latitude the code uses for a member: `strconv.ParseFloat` with the
error ignored, so an unparseable tag yields `0` (line 118). -/
noncomputable def parsedLat (m : Member) : ℝ :=
  parsedVal (parseFloat m.latitude)

/-- Same for the longitude (line 119). -/
noncomputable def parsedLon (m : Member) : ℝ :=
  parsedVal (parseFloat m.longitude)

/-- The distance the code assigns to a member (line 120). -/
noncomputable def distOf (lat long : ℝ) (m : Member) : ℝ :=
  getDistance lat long (parsedLat m) (parsedLon m)

/-- `nodeDistances[index].Nodes = append(..., member)` at the first index whose
key matches (lines 130–132; `findInSlice` returns the first match). -/
def addToGroup : List GeolocateSerfNodes → Member → String → List GeolocateSerfNodes
  | [], _, _ => []
  | g :: rest, m, key =>
    if g.Key = key then { g with Nodes := g.Nodes ++ [m] } :: rest
    else g :: addToGroup rest m key

/-- The fresh group built on lines 121–127 when a member's key is new. -/
noncomputable def newGroup (lat long : ℝ) (m : Member) : GeolocateSerfNodes :=
  { Key := keyOf m, Latitude := parsedLat m, Longitude := parsedLon m,
    Distance := distOf lat long m, Nodes := [m] }

/-- The accumulation loop of lines 113–134 building `nodeDistances`. -/
noncomputable def buildGroups (lat long : ℝ) : List Member → List GeolocateSerfNodes → List GeolocateSerfNodes
  | [], acc => acc
  | m :: rest, acc =>
    if findInSlice acc (keyOf m) = -1 then
      buildGroups lat long rest (acc ++ [newGroup lat long m])
    else
      buildGroups lat long rest (addToGroup acc m (keyOf m))

/-- The comparator of the `sort.Slice` call on lines 135–137:
`nodeDistances[i].Distance <= nodeDistances[j].Distance`. -/
def nodeLE (a b : GeolocateSerfNodes) : Prop :=
  a.Distance ≤ b.Distance

noncomputable instance : DecidableRel nodeLE :=
  fun a b => Real.decidableLE a.Distance b.Distance

instance : IsTotal GeolocateSerfNodes nodeLE :=
  ⟨fun a b => le_total a.Distance b.Distance⟩

instance : IsTrans GeolocateSerfNodes nodeLE :=
  ⟨fun _ _ _ h h' => le_trans h h'⟩

/-- `sort.Slice(nodeDistances, ...)` (lines 135–137), modelled as a sort with
the source's comparator. -/
noncomputable def sortGroups (l : List GeolocateSerfNodes) : List GeolocateSerfNodes :=
  List.insertionSort nodeLE l

/-- The selection loop of lines 138–143: append whole groups in sorted order
until at least `want` members are collected (Go `int` modelled as `ℤ`). -/
def selectLoop (want : ℤ) : List GeolocateSerfNodes → List Member → List Member
  | [], acc => acc
  | g :: rest, acc =>
    if (acc.length : ℤ) < want then selectLoop want rest (acc ++ g.Nodes) else acc

/-- `getClosestSerfNodes`, `recordtester.go` lines 105–145.  Go's `nil` slice
and the empty slice are both modelled as `[]` (the code returns `nil` for
both). -/
noncomputable def getClosestSerfNodes (serfMembers : List Member) (selectNodeCount : ℤ)
    (lat long : ℝ) : List Member :=
  selectLoop selectNodeCount (sortGroups (buildGroups lat long serfMembers [])) []

/-- Members with identical latitude/longitude tag values. -/
def sameLoc (la lo : String) (m : Member) : Bool :=
  m.latitude == la && m.longitude == lo

/-- All members collected in a list of groups, in group order. -/
def nodesOf (gs : List GeolocateSerfNodes) : List Member :=
  gs.flatMap GeolocateSerfNodes.Nodes

@[simp] lemma nodesOf_nil : nodesOf [] = [] := rfl

@[simp] lemma nodesOf_cons (g : GeolocateSerfNodes) (gs : List GeolocateSerfNodes) :
    nodesOf (g :: gs) = g.Nodes ++ nodesOf gs := rfl

@[simp] lemma nodesOf_append (a b : List GeolocateSerfNodes) :
    nodesOf (a ++ b) = nodesOf a ++ nodesOf b :=
  List.flatMap_append a b _

lemma findInSlice_ge (l : List GeolocateSerfNodes) (key : String) : -1 ≤ findInSlice l key := by
  induction l with
  | nil => simp [findInSlice]
  | cons g rest ih =>
    rw [findInSlice]
    split
    · omega
    · dsimp only
      split <;> omega

lemma findInSlice_eq_neg_one_iff (l : List GeolocateSerfNodes) (key : String) :
    findInSlice l key = -1 ↔ ∀ g ∈ l, g.Key ≠ key := by
  induction l with
  | nil => simp [findInSlice]
  | cons g rest ih =>
    rw [findInSlice]
    by_cases h : g.Key = key
    · simp [h]
    · have hge := findInSlice_ge rest key
      rw [if_neg h]
      dsimp only
      constructor
      · intro hcond
        have hrest : findInSlice rest key = -1 := by
          by_cases h2 : findInSlice rest key = -1
          · exact h2
          · rw [if_neg h2] at hcond; omega
        intro g' hg'
        rcases List.mem_cons.mp hg' with rfl | hmem
        · exact h
        · exact (ih.mp hrest) g' hmem
      · intro hall
        have hrest : findInSlice rest key = -1 :=
          ih.mpr fun g' hg' => hall g' (List.mem_cons_of_mem _ hg')
        rw [if_pos hrest]

lemma addToGroup_nodes_perm (m : Member) (key : String) :
    ∀ l : List GeolocateSerfNodes, (∃ g ∈ l, g.Key = key) →
      nodesOf (addToGroup l m key) ~ nodesOf l ++ [m] := by
  intro l
  induction l with
  | nil => rintro ⟨g, hg, -⟩; simp at hg
  | cons g rest ih =>
    rintro ⟨g', hg', hk⟩
    by_cases h : g.Key = key
    · rw [addToGroup, if_pos h]
      calc (g.Nodes ++ [m]) ++ nodesOf rest
          = g.Nodes ++ ([m] ++ nodesOf rest) := by rw [List.append_assoc]
        _ ~ g.Nodes ++ (nodesOf rest ++ [m]) :=
            List.Perm.append_left _ (List.perm_append_singleton m _).symm
        _ = (g.Nodes ++ nodesOf rest) ++ [m] := (List.append_assoc _ _ _).symm
    · rw [addToGroup, if_neg h]
      have hg'' : g' ∈ rest := by
        rcases List.mem_cons.mp hg' with rfl | hmem
        · exact absurd hk h
        · exact hmem
      calc g.Nodes ++ nodesOf (addToGroup rest m key)
          ~ g.Nodes ++ (nodesOf rest ++ [m]) :=
            List.Perm.append_left _ (ih ⟨g', hg'', hk⟩)
        _ = (g.Nodes ++ nodesOf rest) ++ [m] := (List.append_assoc _ _ _).symm

lemma buildGroups_nodes_perm (lat long : ℝ) :
    ∀ (ms : List Member) (acc : List GeolocateSerfNodes),
      nodesOf (buildGroups lat long ms acc) ~ nodesOf acc ++ ms := by
  intro ms
  induction ms with
  | nil => intro acc; simp [buildGroups]
  | cons m rest ih =>
    intro acc
    rw [buildGroups]
    by_cases h : findInSlice acc (keyOf m) = -1
    · rw [if_pos h]
      refine (ih _).trans ?_
      rw [show nodesOf (acc ++ [newGroup lat long m]) ++ rest = nodesOf acc ++ (m :: rest) by
        simp [nodesOf, newGroup]]
    · rw [if_neg h]
      have hex : ∃ g ∈ acc, g.Key = keyOf m := by
        by_contra hc
        push_neg at hc
        exact h ((findInSlice_eq_neg_one_iff acc (keyOf m)).mpr hc)
      calc nodesOf (buildGroups lat long rest (addToGroup acc m (keyOf m)))
          ~ nodesOf (addToGroup acc m (keyOf m)) ++ rest := ih _
        _ ~ (nodesOf acc ++ [m]) ++ rest :=
            (addToGroup_nodes_perm m (keyOf m) acc hex).append_right rest
        _ = nodesOf acc ++ (m :: rest) := by simp

/-- The invariant the accumulation loop maintains on every group: all members
of a group carry the group's key, and the group's distance is the distance of
the first member put into it. -/
def GroupWF (lat long : ℝ) (g : GeolocateSerfNodes) : Prop :=
  (∀ m ∈ g.Nodes, keyOf m = g.Key) ∧
    ∃ h t, g.Nodes = h :: t ∧ g.Distance = distOf lat long h

lemma addToGroup_wf {lat long : ℝ} {m : Member} {key : String} (hm : keyOf m = key) :
    ∀ l : List GeolocateSerfNodes, (∀ g ∈ l, GroupWF lat long g) →
      ∀ g ∈ addToGroup l m key, GroupWF lat long g := by
  intro l
  induction l with
  | nil => intro _ g hg; simp [addToGroup] at hg
  | cons g rest ih =>
    intro hwf g' hg'
    by_cases h : g.Key = key
    · rw [addToGroup, if_pos h] at hg'
      rcases List.mem_cons.mp hg' with rfl | hmem
      · obtain ⟨hkeys, hfst, tl, hnodes, hdist⟩ := hwf g (List.mem_cons_self g rest)
        refine ⟨?_, hfst, tl ++ [m], ?_, hdist⟩
        · intro x hx
          rcases List.mem_append.mp hx with hx | hx
          · exact hkeys x hx
          · simp at hx
            subst hx
            rw [hm, h]
        · rw [hnodes]; rfl
      · exact hwf g' (List.mem_cons_of_mem _ hmem)
    · rw [addToGroup, if_neg h] at hg'
      rcases List.mem_cons.mp hg' with rfl | hmem
      · exact hwf g' (List.mem_cons_self _ _)
      · exact ih (fun x hx => hwf x (List.mem_cons_of_mem _ hx)) g' hmem

lemma buildGroups_wf (lat long : ℝ) :
    ∀ (ms : List Member) (acc : List GeolocateSerfNodes),
      (∀ g ∈ acc, GroupWF lat long g) →
      ∀ g ∈ buildGroups lat long ms acc, GroupWF lat long g := by
  intro ms
  induction ms with
  | nil => intro acc hacc; rw [buildGroups]; exact hacc
  | cons m rest ih =>
    intro acc hacc
    rw [buildGroups]
    by_cases h : findInSlice acc (keyOf m) = -1
    · rw [if_pos h]
      refine ih _ fun g hg => ?_
      rcases List.mem_append.mp hg with hg | hg
      · exact hacc g hg
      · simp at hg
        subst hg
        exact ⟨by simp [newGroup, keyOf], m, [], by simp [newGroup], by simp [newGroup]⟩
    · rw [if_neg h]
      exact ih _ (addToGroup_wf rfl acc hacc)

lemma addToGroup_keys (m : Member) (key : String) :
    ∀ l : List GeolocateSerfNodes,
      (addToGroup l m key).map (·.Key) = l.map (·.Key) := by
  intro l
  induction l with
  | nil => rfl
  | cons g rest ih =>
    by_cases h : g.Key = key
    · rw [addToGroup, if_pos h]; rfl
    · rw [addToGroup, if_neg h]
      simpa using ih

lemma buildGroups_keys_distinct (lat long : ℝ) :
    ∀ (ms : List Member) (acc : List GeolocateSerfNodes),
      (acc.map (·.Key)).Pairwise (· ≠ ·) →
      ((buildGroups lat long ms acc).map (·.Key)).Pairwise (· ≠ ·) := by
  intro ms
  induction ms with
  | nil => intro acc hacc; rw [buildGroups]; exact hacc
  | cons m rest ih =>
    intro acc hacc
    rw [buildGroups]
    by_cases h : findInSlice acc (keyOf m) = -1
    · rw [if_pos h]
      refine ih _ ?_
      rw [List.map_append, List.pairwise_append]
      refine ⟨hacc, by simp, ?_⟩
      intro a ha b hb
      simp [newGroup] at hb
      subst hb
      obtain ⟨g, hg, rfl⟩ := List.mem_map.mp ha
      exact (findInSlice_eq_neg_one_iff acc (keyOf m)).mp h g hg
    · rw [if_neg h]
      refine ih _ ?_
      rw [addToGroup_keys]
      exact hacc

lemma selectLoop_eq (want : ℤ) :
    ∀ (gs : List GeolocateSerfNodes) (acc : List Member),
      ∃ n, selectLoop want gs acc = acc ++ nodesOf (gs.take n) := by
  intro gs
  induction gs with
  | nil => intro acc; exact ⟨0, by simp [selectLoop]⟩
  | cons g rest ih =>
    intro acc
    rw [selectLoop]
    by_cases h : (acc.length : ℤ) < want
    · rw [if_pos h]
      obtain ⟨n, hn⟩ := ih (acc ++ g.Nodes)
      exact ⟨n + 1, by rw [hn]; simp⟩
    · rw [if_neg h]
      exact ⟨0, by simp⟩

lemma selectLoop_length_ge (want : ℤ) :
    ∀ (gs : List GeolocateSerfNodes) (acc : List Member),
      want ≤ (acc.length : ℤ) + ((nodesOf gs).length : ℤ) →
      want ≤ ((selectLoop want gs acc).length : ℤ) := by
  intro gs
  induction gs with
  | nil => intro acc hle; rw [selectLoop]; simpa using hle
  | cons g rest ih =>
    intro acc hle
    rw [selectLoop]
    by_cases h : (acc.length : ℤ) < want
    · rw [if_pos h]
      refine ih (acc ++ g.Nodes) ?_
      simp only [nodesOf_cons, List.length_append] at hle ⊢
      push_cast at hle ⊢
      omega
    · rw [if_neg h]
      omega

lemma selectLoop_all (want : ℤ) :
    ∀ (gs : List GeolocateSerfNodes) (acc : List Member),
      (acc.length : ℤ) + ((nodesOf gs).length : ℤ) < want →
      selectLoop want gs acc = acc ++ nodesOf gs := by
  intro gs
  induction gs with
  | nil => intro acc _; simp [selectLoop]
  | cons g rest ih =>
    intro acc hlt
    simp only [nodesOf_cons, List.length_append] at hlt
    push_cast at hlt
    rw [selectLoop, if_pos (by omega)]
    rw [ih (acc ++ g.Nodes) (by simp; omega)]
    simp

lemma distOf_congr {lat long : ℝ} {m h : Member} (hla : m.latitude = h.latitude)
    (hlo : m.longitude = h.longitude) : distOf lat long m = distOf lat long h := by
  unfold distOf parsedLat parsedLon
  rw [hla, hlo]

lemma nodesOf_sort_perm (lat long : ℝ) (members : List Member) :
    nodesOf (sortGroups (buildGroups lat long members [])) ~ members := by
  refine (List.Perm.flatMap_right GeolocateSerfNodes.Nodes
    (List.perm_insertionSort nodeLE (buildGroups lat long members []))).trans ?_
  simpa using buildGroups_nodes_perm lat long members []

/-- C3: requesting `k` nodes returns at least `k` members when at least `k`
exist, returns all members (as a multiset) when fewer than `k` exist, and
returns the empty list on an empty candidate set. -/
theorem claim_C3_count_bound (members : List Member) (k : ℤ) (lat long : ℝ) :
    (k ≤ (members.length : ℤ) →
      k ≤ ((getClosestSerfNodes members k lat long).length : ℤ)) ∧
    ((members.length : ℤ) < k → getClosestSerfNodes members k lat long ~ members) ∧
    (members = [] → getClosestSerfNodes members k lat long = []) := by
  have hnodes : nodesOf (sortGroups (buildGroups lat long members [])) ~ members :=
    nodesOf_sort_perm lat long members
  have hlen : (nodesOf (sortGroups (buildGroups lat long members []))).length =
      members.length := hnodes.length_eq
  refine ⟨?_, ?_, ?_⟩
  · intro hk
    refine selectLoop_length_ge k _ [] ?_
    simp [hlen]
    omega
  · intro hk
    show selectLoop k (sortGroups (buildGroups lat long members [])) [] ~ members
    rw [selectLoop_all k _ [] (by simp [hlen]; omega)]
    simpa using hnodes
  · rintro rfl
    rfl

/-- Witness for `claim_C3_count_bound` at concrete inputs. -/
theorem claim_C3_count_bound_witness :
    ((1 : ℤ) ≤ (([⟨"a", "1", "2"⟩] : List Member).length : ℤ) ∧
      (1 : ℤ) ≤ ((getClosestSerfNodes [⟨"a", "1", "2"⟩] 1 0 0).length : ℤ)) ∧
    ((([⟨"a", "1", "2"⟩] : List Member).length : ℤ) < 2 ∧
      getClosestSerfNodes [⟨"a", "1", "2"⟩] 2 0 0 ~ [⟨"a", "1", "2"⟩]) ∧
    getClosestSerfNodes [] 3 0 0 = [] :=
  ⟨⟨by decide, (claim_C3_count_bound [⟨"a", "1", "2"⟩] 1 0 0).1 (by decide)⟩,
   ⟨by decide, (claim_C3_count_bound [⟨"a", "1", "2"⟩] 2 0 0).2.1 (by decide)⟩,
   (claim_C3_count_bound [] 3 0 0).2.2 rfl⟩

lemma sorted_blocks (lat long : ℝ) :
    ∀ gs : List GeolocateSerfNodes,
      gs.Pairwise nodeLE →
      (∀ g ∈ gs, ∀ m ∈ g.Nodes, distOf lat long m = g.Distance) →
      ((nodesOf gs).map (distOf lat long)).Pairwise (· ≤ ·) := by
  intro gs
  induction gs with
  | nil => intro _ _; simp
  | cons g rest ih =>
    intro hpw hwf
    rw [nodesOf_cons, List.map_append, List.pairwise_append]
    obtain ⟨hg, hpw'⟩ := List.pairwise_cons.mp hpw
    refine ⟨?_, ih hpw' (fun g' hg' => hwf g' (List.mem_cons_of_mem _ hg')), ?_⟩
    · apply List.pairwise_of_forall_mem_list
      intro a ha b hb
      obtain ⟨ma, hma, rfl⟩ := List.mem_map.mp ha
      obtain ⟨mb, hmb, rfl⟩ := List.mem_map.mp hb
      rw [hwf g (List.mem_cons_self _ _) ma hma, hwf g (List.mem_cons_self _ _) mb hmb]
    · intro a ha b hb
      obtain ⟨ma, hma, rfl⟩ := List.mem_map.mp ha
      obtain ⟨mb, hmb, rfl⟩ := List.mem_map.mp hb
      obtain ⟨g', hg', hmb'⟩ := List.mem_flatMap.mp hmb
      rw [hwf g (List.mem_cons_self _ _) ma hma,
        hwf g' (List.mem_cons_of_mem _ hg') mb hmb']
      exact hg g' hg'

/-- C2 (amended): provided the location key is unambiguous on the input (no
two members with different tag values share the concatenated `lat-lon` key),
the returned member list is sorted by non-decreasing distance; and —
unconditionally — members sharing identical latitude/longitude tags are
selected or skipped as a whole, never split. -/
theorem claim_C2_amended_sorted_and_no_split (members : List Member) (k : ℤ) (lat long : ℝ) :
    ((∀ m₁ ∈ members, ∀ m₂ ∈ members, keyOf m₁ = keyOf m₂ →
        m₁.latitude = m₂.latitude ∧ m₁.longitude = m₂.longitude) →
      ((getClosestSerfNodes members k lat long).map (distOf lat long)).Pairwise (· ≤ ·)) ∧
    (∀ la lo, (getClosestSerfNodes members k lat long).countP (sameLoc la lo) =
        members.countP (sameLoc la lo) ∨
      (getClosestSerfNodes members k lat long).countP (sameLoc la lo) = 0) := by
  have hnodesperm : nodesOf (sortGroups (buildGroups lat long members [])) ~ members :=
    nodesOf_sort_perm lat long members
  have hwfall : ∀ g ∈ sortGroups (buildGroups lat long members []), GroupWF lat long g :=
    fun g hg => buildGroups_wf lat long members [] (by simp) g
      ((List.perm_insertionSort nodeLE _).mem_iff.mp hg)
  have hsorted : (sortGroups (buildGroups lat long members [])).Pairwise nodeLE :=
    List.sorted_insertionSort nodeLE _
  have hkeys : (sortGroups (buildGroups lat long members [])).Pairwise
      (fun a b => a.Key ≠ b.Key) := by
    have h1 : ((buildGroups lat long members []).map (·.Key)).Pairwise (· ≠ ·) :=
      buildGroups_keys_distinct lat long members [] (by simp)
    have h2 : ((sortGroups (buildGroups lat long members [])).map (·.Key)).Pairwise (· ≠ ·) :=
      (List.Perm.pairwise_iff (fun h => h.symm)
        ((List.perm_insertionSort nodeLE _).map (·.Key))).mpr h1
    rwa [List.pairwise_map] at h2
  constructor
  · intro hinj
    have hmem_members : ∀ g ∈ sortGroups (buildGroups lat long members []),
        ∀ m ∈ g.Nodes, m ∈ members :=
      fun g hg m hm => hnodesperm.mem_iff.mp (List.mem_flatMap.mpr ⟨g, hg, hm⟩)
    have hdg : ∀ g ∈ sortGroups (buildGroups lat long members []),
        ∀ m ∈ g.Nodes, distOf lat long m = g.Distance := by
      intro g hg m hm
      obtain ⟨hkeysg, h, t, hnodes, hdist⟩ := hwfall g hg
      have hh : h ∈ g.Nodes := by rw [hnodes]; exact List.mem_cons_self _ _
      have hkm : keyOf m = keyOf h := by rw [hkeysg m hm, hkeysg h hh]
      obtain ⟨hla, hlo⟩ := hinj m (hmem_members g hg m hm) h (hmem_members g hg h hh) hkm
      rw [hdist]
      exact distOf_congr hla hlo
    obtain ⟨n, hn⟩ := selectLoop_eq k (sortGroups (buildGroups lat long members [])) []
    show ((selectLoop k (sortGroups (buildGroups lat long members [])) []).map
      (distOf lat long)).Pairwise (· ≤ ·)
    rw [hn, List.nil_append]
    exact sorted_blocks lat long _
      (List.Pairwise.sublist (List.take_sublist n _) hsorted)
      (fun g hg => hdg g (List.take_subset n _ hg))
  · intro la lo
    obtain ⟨n, hn⟩ := selectLoop_eq k (sortGroups (buildGroups lat long members [])) []
    have hkeyloc : ∀ m : Member, sameLoc la lo m = true → keyOf m = locationKey la lo := by
      intro m hm
      simp only [sameLoc, Bool.and_eq_true, beq_iff_eq] at hm
      rw [keyOf, getMemberLocation, hm.1, hm.2]
    have hout : (getClosestSerfNodes members k lat long).countP (sameLoc la lo) =
        (nodesOf ((sortGroups (buildGroups lat long members [])).take n)).countP
          (sameLoc la lo) := by
      show (selectLoop k (sortGroups (buildGroups lat long members [])) []).countP _ = _
      rw [hn, List.nil_append]
    have hcnt : members.countP (sameLoc la lo) =
        (nodesOf ((sortGroups (buildGroups lat long members [])).take n)).countP
          (sameLoc la lo) +
        (nodesOf ((sortGroups (buildGroups lat long members [])).drop n)).countP
          (sameLoc la lo) := by
      rw [← List.countP_append, ← nodesOf_append, List.take_append_drop]
      exact (hnodesperm.countP_eq _).symm
    have hcross : ∀ a ∈ (sortGroups (buildGroups lat long members [])).take n,
        ∀ b ∈ (sortGroups (buildGroups lat long members [])).drop n, a.Key ≠ b.Key := by
      have h := hkeys
      rw [← List.take_append_drop n (sortGroups (buildGroups lat long members []))] at h
      exact fun a ha b hb => (List.pairwise_append.mp h).2.2 a ha b hb
    by_cases hzero : (nodesOf ((sortGroups (buildGroups lat long members [])).drop n)).countP
        (sameLoc la lo) = 0
    · left
      rw [hout, hcnt, hzero, Nat.add_zero]
    · right
      rw [hout]
      have hpos : 0 < (nodesOf ((sortGroups (buildGroups lat long members [])).drop n)).countP
          (sameLoc la lo) := Nat.pos_of_ne_zero hzero
      obtain ⟨mb, hmb, hmbloc⟩ := List.countP_pos_iff.mp hpos
      obtain ⟨gd, hgd, hmbg⟩ := List.mem_flatMap.mp hmb
      have hgdkey : gd.Key = locationKey la lo := by
        rw [← (hwfall gd (List.drop_subset n _ hgd)).1 mb hmbg]
        exact hkeyloc mb hmbloc
      rw [List.countP_eq_zero]
      intro mt hmt hloc
      obtain ⟨gt, hgt, hmtg⟩ := List.mem_flatMap.mp hmt
      have hgtkey : gt.Key = locationKey la lo := by
        rw [← (hwfall gt (List.take_subset n _ hgt)).1 mt hmtg]
        exact hkeyloc mt hloc
      exact hcross gt hgt gd hgd (hgtkey.trans hgdkey.symm)

/-- Witness for `claim_C2_amended_sorted_and_no_split` at a concrete input. -/
theorem claim_C2_amended_witness :
    (∀ m₁ ∈ ([⟨"a", "1", "2"⟩] : List Member), ∀ m₂ ∈ ([⟨"a", "1", "2"⟩] : List Member),
        keyOf m₁ = keyOf m₂ → m₁.latitude = m₂.latitude ∧ m₁.longitude = m₂.longitude) ∧
    ((getClosestSerfNodes [⟨"a", "1", "2"⟩] 1 0 0).map (distOf 0 0)).Pairwise (· ≤ ·) :=
  ⟨by decide, (claim_C2_amended_sorted_and_no_split [⟨"a", "1", "2"⟩] 1 0 0).1 (by decide)⟩

/-- Counterexample member for C2: the tag pair `("1-2", "3")` and the tag pair
`("1", "2-3")` both produce the location key `"1-2-3"`. -/
def cexA : Member := ⟨"a", "1-2", "3"⟩

/-- Second counterexample member for C2 (same key, different tags). -/
def cexB : Member := ⟨"b", "1", "2-3"⟩

lemma distOf_cexA : distOf 0 0 cexA = earthRadius * (2 * (3 * π / 180)) := by
  have h : distOf 0 0 cexA = getDistance 0 0 0 3 := by
    unfold distOf parsedLat parsedLon cexA
    norm_num [show parseFloat "1-2" = none from by decide,
      show parseFloat "3" = some (3, 0) from by decide, parsedVal]
  rw [h]
  exact getDistance_lon_eval (by norm_num) (by norm_num)

lemma distOf_cexB : distOf 0 0 cexB = earthRadius * (2 * (1 * π / 180)) := by
  have h : distOf 0 0 cexB = getDistance 0 0 1 0 := by
    unfold distOf parsedLat parsedLon cexB
    norm_num [show parseFloat "1" = some (1, 0) from by decide,
      show parseFloat "2-3" = none from by decide, parsedVal]
  rw [h]
  exact getDistance_lat_eval (by norm_num) (by norm_num)

/-- C2 (counterexample): the location key `fmt.Sprintf("%s-%s")` is ambiguous,
so members with different tag values can share one key.  With origin `(0,0)`
and candidates `cexA` (tags `"1-2"`/`"3"`, parsed location `(0,3)`, distance
`≈ 667 km`) and `cexB` (tags `"1"`/`"2-3"`, parsed location `(1,0)`, distance
`≈ 222 km`), both land in the single group with key `"1-2-3"`, and the
returned list `[cexA, cexB]` is NOT ordered by non-decreasing distance from
the origin. -/
theorem claim_C2_counterexample_key_collision :
    getClosestSerfNodes [cexA, cexB] 1 0 0 = [cexA, cexB] ∧
    ¬ ((getClosestSerfNodes [cexA, cexB] 1 0 0).map (distOf 0 0)).Pairwise (· ≤ ·) := by
  have heval : getClosestSerfNodes [cexA, cexB] 1 0 0 = [cexA, cexB] := by
    simp +decide [getClosestSerfNodes, buildGroups, sortGroups, selectLoop, addToGroup,
      newGroup, findInSlice, nodeLE]
  refine ⟨heval, ?_⟩
  rw [heval, List.map_cons, List.map_cons, List.map_nil]
  intro hpw
  have hle : distOf 0 0 cexA ≤ distOf 0 0 cexB :=
    (List.pairwise_cons.mp hpw).1 _ (List.mem_cons_self _ _)
  rw [distOf_cexA, distOf_cexB, earthRadius] at hle
  have hπ := pi_pos
  nlinarith

/-- Counterexample member for C4: both tags unparseable. -/
def cexBad : Member := ⟨"bad", "abc", "def"⟩

/-- Well-located member for C4, about 222 km from the origin (by the code's
doubled formula). -/
def cexGood : Member := ⟨"good", "1", "0"⟩

lemma distOf_cexBad : distOf 0 0 cexBad = 0 := by
  have h : distOf 0 0 cexBad = getDistance 0 0 0 0 := by
    unfold distOf parsedLat parsedLon cexBad
    norm_num [show parseFloat "abc" = none from by decide,
      show parseFloat "def" = none from by decide, parsedVal]
  rw [h, getDistance_self]

lemma distOf_cexGood : distOf 0 0 cexGood = earthRadius * (2 * (1 * π / 180)) := by
  have h : distOf 0 0 cexGood = getDistance 0 0 1 0 := by
    unfold distOf parsedLat parsedLon cexGood
    norm_num [show parseFloat "1" = some (1, 0) from by decide,
      show parseFloat "0" = some (0, 0) from by decide, parsedVal]
  rw [h]
  exact getDistance_lat_eval (by norm_num) (by norm_num)

/-- C4 (counterexample): `strconv.ParseFloat` failures are ignored and the
zero result is used, so a candidate with unparseable tags gets the location
`(0,0)` and a perfectly ordinary distance — NOT `NaN`, and NOT sorted last.
With origin `(0,0)`, the malformed candidate `cexBad` has distance `0` and is
selected ahead of the well-located candidate `cexGood` (distance `> 0`); the
claim would require `[cexGood]` to be returned. -/
theorem claim_C4_counterexample_malformed_first :
    parseFloat cexBad.latitude = none ∧ parseFloat cexBad.longitude = none ∧
    (parseFloat cexGood.latitude).isSome = true ∧
    (parseFloat cexGood.longitude).isSome = true ∧
    0 < distOf 0 0 cexGood ∧
    getClosestSerfNodes [cexBad, cexGood] 1 0 0 = [cexBad] := by
  have hle : distOf 0 0 cexBad ≤ distOf 0 0 cexGood := by
    rw [distOf_cexBad, distOf_cexGood, earthRadius]
    positivity
  refine ⟨by decide, by decide, by decide, by decide, ?_, ?_⟩
  · rw [distOf_cexGood, earthRadius]
    positivity
  · simp +decide [getClosestSerfNodes, buildGroups, sortGroups, selectLoop, addToGroup,
      newGroup, findInSlice, nodeLE, hle]

/-- C4 (amended): an unparseable tag is parsed as `0` with the error
discarded (lines 118–119), so a malformed candidate is treated as if located
at `(0,0)`: its group gets latitude/longitude `0` and the well-defined
distance `getDistance lat long 0 0`, and selection proceeds normally over it —
total (never crashing), but with no rule placing such candidates last. -/
theorem claim_C4_amended_malformed_at_origin (lat long : ℝ) (m : Member)
    (h1 : parseFloat m.latitude = none) (h2 : parseFloat m.longitude = none) :
    newGroup lat long m =
      { Key := keyOf m, Latitude := 0, Longitude := 0,
        Distance := getDistance lat long 0 0, Nodes := [m] } ∧
    getClosestSerfNodes [m] 1 lat long = [m] := by
  have hlat : parsedLat m = 0 := by rw [parsedLat, h1]; rfl
  have hlon : parsedLon m = 0 := by rw [parsedLon, h2]; rfl
  constructor
  · rw [newGroup, distOf, hlat, hlon]
  · show selectLoop 1 (sortGroups (buildGroups lat long [m] [])) [] = [m]
    simp [buildGroups, sortGroups, selectLoop, newGroup, findInSlice]

/-- Witness for `claim_C4_amended_malformed_at_origin` at a concrete input. -/
theorem claim_C4_amended_witness :
    parseFloat (Member.latitude ⟨"w", "abc", "def"⟩) = none ∧
    parseFloat (Member.longitude ⟨"w", "abc", "def"⟩) = none ∧
    getClosestSerfNodes [⟨"w", "abc", "def"⟩] 1 0 0 = [⟨"w", "abc", "def"⟩] :=
  ⟨by decide, by decide,
    (claim_C4_amended_malformed_at_origin 0 0 ⟨"w", "abc", "def"⟩ (by decide) (by decide)).2⟩

/-! ### The `exit` closure of `recordtester.go` (lines 287–300) -/

/-- A non-nil Go `error` as the `exit` closure distinguishes it:
`context.Canceled` versus anything else. -/
inductive GoError where
  | canceled
  | other (msg : String)
deriving DecidableEq, Repr

/-- What `exit` does apart from removing the temp file: the process exit code,
and whether the `glog.Errorf("Record test failed ...")` failure report fires. -/
structure ExitAction where
  code : ℤ
  reportedFailure : Bool
deriving DecidableEq, Repr

/-- The `exit` closure, `recordtester.go` lines 287–300 (file cleanup elided):
when `err != context.Canceled` the exit code is kept and a failure is reported
exactly when the code is non-zero; `context.Canceled` forces exit code `0` and
reports nothing. -/
def exitAction (exitCode : ℤ) (err : Option GoError) : ExitAction :=
  if err = some GoError.canceled then { code := 0, reportedFailure := false }
  else { code := exitCode, reportedFailure := decide (exitCode ≠ 0) }

/-- C8: a run that ends with the context-cancellation error exits with code 0
and is never reported as a failure, whatever exit code the test produced. -/
theorem claim_C8_cancellation_is_clean_exit :
    ∀ exitCode : ℤ, exitAction exitCode (some GoError.canceled) =
      { code := 0, reportedFailure := false } :=
  fun _ => rfl

end RT

namespace Vod

/-! ### VOD tester orchestration (`internal/app/vodtester/vodtester_app.go`)

The three phases of `Start` (url import, direct upload, resumable upload) run
concurrently under `errgroup.WithContext`.  Scheduling is modelled by the list
of phase outcomes in completion order (`none` = the phase returned `nil`,
`some e` = it returned error `e`).  Per the errgroup contract, the derived
context is cancelled the first time a phase returns a non-nil error, and
`Wait` returns the first non-nil error observed. -/

/-- `eg.Wait()`: the first non-nil error in completion order, if any. -/
def egWaitResult (outcomes : List (Option String)) : Option String :=
  outcomes.findSome? id

/-- Whether the errgroup-derived context `egCtx` (each phase's lifetime) is
cancelled by a phase failure, before `Wait` returns. -/
def egCtxCanceledEarly (outcomes : List (Option String)) : Bool :=
  outcomes.any Option.isSome

/-- The value `Start` returns (lines 127–132): `eg.Wait()`'s error if non-nil,
otherwise nil. -/
def startResult (outcomes : List (Option String)) : Option String :=
  match egWaitResult outcomes with
  | some err => some err
  | none => none

lemma findSome_id_of_all_none :
    ∀ l : List (Option String), l.all Option.isNone = true → l.findSome? id = none := by
  intro l
  induction l with
  | nil => intro _; rfl
  | cons o rest ih =>
    intro h
    rw [List.all_cons, Bool.and_eq_true] at h
    have : o = none := Option.eq_none_iff_forall_not_mem.mpr
      (fun a ha => by rw [Option.isNone_iff_eq_none.mp h.1] at ha; cases ha)
    subst this
    simpa [List.findSome?] using ih h.2

lemma findSome_id_append_none :
    ∀ pre : List (Option String), pre.all Option.isNone = true →
      ∀ l, (pre ++ l).findSome? id = l.findSome? id := by
  intro pre
  induction pre with
  | nil => intro _ l; rfl
  | cons o rest ih =>
    intro h l
    rw [List.all_cons, Bool.and_eq_true] at h
    have : o = none := Option.isNone_iff_eq_none.mp h.1
    subst this
    simpa [List.findSome?] using ih h.2 l

/-- C5: if every phase succeeds, `Start` returns nil; if exactly one phase
fails, `Start` returns that phase's error and the derived context — every
sibling phase's lifetime — is cancelled at that failure. -/
theorem claim_C5_phase_aggregation (outcomes : List (Option String)) :
    (outcomes.all Option.isNone = true → startResult outcomes = none) ∧
    (∀ pre e post, outcomes = pre ++ some e :: post →
      pre.all Option.isNone = true → post.all Option.isNone = true →
      startResult outcomes = some e ∧ egCtxCanceledEarly outcomes = true) := by
  constructor
  · intro h
    rw [startResult, egWaitResult, findSome_id_of_all_none outcomes h]
  · rintro pre e post rfl hpre _
    constructor
    · rw [startResult, egWaitResult, findSome_id_append_none pre hpre]
      rfl
    · rw [egCtxCanceledEarly, List.any_eq_true]
      exact ⟨some e, List.mem_append_right pre (List.mem_cons_self _ _), rfl⟩

/-- Witness for `claim_C5_phase_aggregation` at concrete outcome lists. -/
theorem claim_C5_phase_aggregation_witness :
    (([none, none, none] : List (Option String)).all Option.isNone = true ∧
      startResult [none, none, none] = none) ∧
    (([none, some "boom", none] : List (Option String)) =
        [none] ++ some "boom" :: [none] ∧
      startResult [none, some "boom", none] = some "boom" ∧
      egCtxCanceledEarly [none, some "boom", none] = true) :=
  ⟨⟨by decide, (claim_C5_phase_aggregation [none, none, none]).1 (by decide)⟩,
   ⟨rfl, (claim_C5_phase_aggregation [none, some "boom", none]).2
      [none] "boom" [none] rfl (by decide) (by decide)⟩⟩

/-- The session state owned by `NewVodTester` (lines 36–47): the cancellable
lifetime created by `context.WithCancel`.  `Done()` fires exactly when this
flag is set, and no operation ever unsets it. -/
structure TesterApp where
  ctxCanceled : Bool
deriving DecidableEq, Repr

/-- `vt.Cancel()` — the stored `context.CancelFunc`. -/
def cancelApp (t : TesterApp) : TesterApp :=
  { t with ctxCanceled := true }

/-- `Start` including its `defer vt.Cancel()` (line 50): the body computes the
return value — `eg.Wait()`'s error on the failure path, nil on the success
path — and the deferred `Cancel` runs on every return path, after the
`egCtx`-watching goroutine (lines 123–126) may already have cancelled. -/
def startWithDefer (outcomes : List (Option String)) (t : TesterApp) :
    Option String × TesterApp :=
  (startResult outcomes, cancelApp t)

/-- C10: whatever the phases do and whatever state the session lifetime was
in, `Start` returns with the session's own lifetime cancelled (so `Done()`
fires), and cancelling again changes nothing — a cancelled lifetime never
resumes. -/
theorem claim_C10_start_always_cancels (outcomes : List (Option String)) (t : TesterApp) :
    (startWithDefer outcomes t).2.ctxCanceled = true ∧
    cancelApp (startWithDefer outcomes t).2 = (startWithDefer outcomes t).2 :=
  ⟨rfl, rfl⟩

/-! ### `checkPlayback` (lines 253–287) -/

/-- The `VideoSpec` of an asset (external `go-api-client`); only the duration
is read.  float64 idealized as `ℝ`. -/
structure VideoSpec where
  DurationSec : ℝ

/-- An asset as `checkPlayback` reads it. -/
structure Asset where
  VideoSpec : VideoSpec
  PlaybackID : String

/-- One entry of `pinfo.Meta.Source`.  The Go field `Type` is named `SrcType`
here (`Type` is reserved in Lean). -/
structure PlaybackSource where
  SrcType : String
  Url : String

/-- The playback info; the `Meta` wrapper is flattened to the only field read. -/
structure PlaybackInfo where
  Source : List PlaybackSource

/-- The statistics `m3u8.CheckStats` returns; `SegmentsNum` has one entry per
rendition found in the master playlist. -/
structure M3u8Stats where
  SegmentsNum : List ℕ

/-- `api.PlaybackInfoSourceTypeHLS` from the external client library. -/
def playbackInfoSourceTypeHLS : String :=
  "html5/application/vnd.apple.mpegurl"

/-- The `url` computed by the loop on lines 267–273: the first HLS source's
URL, `""` when no HLS source exists (or when its URL is itself empty). -/
def hlsUrl (pinfo : PlaybackInfo) : String :=
  match pinfo.Source.find? (fun src => src.SrcType == playbackInfoSourceTypeHLS) with
  | some src => src.Url
  | none => ""

/-- The distinct failures of `checkPlayback`. -/
inductive CheckErr where
  | getAsset (msg : String)
  | noDuration
  | getPlaybackInfo (msg : String)
  | noStreamingSource
  | checkStats (msg : String)
  | insufficientRenditions
deriving DecidableEq, Repr

/-- `checkPlayback`, lines 253–287, as a function of the results of its three
external calls (`GetAsset`, `GetPlaybackInfo`, `m3u8.CheckStats`); `none` is
success. -/
noncomputable def checkPlayback (assetRes : Except String Asset)
    (pinfoRes : Except String PlaybackInfo)
    (statsRes : Except String M3u8Stats) : Option CheckErr :=
  match assetRes with
  | .error e => some (.getAsset e)
  | .ok asset =>
    if asset.VideoSpec.DurationSec ≤ 0 then some .noDuration
    else
      match pinfoRes with
      | .error e => some (.getPlaybackInfo e)
      | .ok pinfo =>
        if hlsUrl pinfo = "" then some .noStreamingSource
        else
          match statsRes with
          | .error e => some (.checkStats e)
          | .ok stats =>
            if stats.SegmentsNum.length ≤ 1 then some .insufficientRenditions
            else none

/-- C6: `checkPlayback` fails with the "no duration" error whenever the
reported duration is non-positive; with the "no streaming source" error
whenever (the earlier checks passing) no HLS source is present; with the
"insufficient renditions" error whenever (the earlier checks passing) at most
one rendition is observed; and succeeds only when none of these conditions
holds. -/
theorem claim_C6_checkPlayback_errors (assetRes : Except String Asset)
    (pinfoRes : Except String PlaybackInfo) (statsRes : Except String M3u8Stats) :
    (∀ a, assetRes = .ok a → a.VideoSpec.DurationSec ≤ 0 →
      checkPlayback assetRes pinfoRes statsRes = some CheckErr.noDuration) ∧
    (∀ a p, assetRes = .ok a → 0 < a.VideoSpec.DurationSec → pinfoRes = .ok p →
      (∀ src ∈ p.Source, src.SrcType ≠ playbackInfoSourceTypeHLS) →
      checkPlayback assetRes pinfoRes statsRes = some CheckErr.noStreamingSource) ∧
    (∀ a p st, assetRes = .ok a → 0 < a.VideoSpec.DurationSec → pinfoRes = .ok p →
      hlsUrl p ≠ "" → statsRes = .ok st → st.SegmentsNum.length ≤ 1 →
      checkPlayback assetRes pinfoRes statsRes = some CheckErr.insufficientRenditions) ∧
    (checkPlayback assetRes pinfoRes statsRes = none →
      ∃ a p st, assetRes = .ok a ∧ 0 < a.VideoSpec.DurationSec ∧ pinfoRes = .ok p ∧
        (∃ src ∈ p.Source, src.SrcType = playbackInfoSourceTypeHLS) ∧
        statsRes = .ok st ∧ 1 < st.SegmentsNum.length) := by
  refine ⟨?_, ?_, ?_, ?_⟩
  · rintro a rfl hdur
    rw [checkPlayback.eq_def]
    dsimp only
    rw [if_pos hdur]
  · rintro a p rfl hdur rfl hnone
    have hurl : hlsUrl p = "" := by
      rw [hlsUrl, List.find?_eq_none.mpr]
      intro src hsrc
      simpa using hnone src hsrc
    rw [checkPlayback.eq_def]
    dsimp only
    rw [if_neg (not_le.mpr hdur), hurl, if_pos rfl]
  · rintro a p st rfl hdur rfl hurl rfl hlen
    rw [checkPlayback.eq_def]
    dsimp only
    rw [if_neg (not_le.mpr hdur), if_neg hurl, if_pos hlen]
  · intro hnone
    rw [checkPlayback.eq_def] at hnone
    cases assetRes with
    | error e => dsimp only at hnone; cases hnone
    | ok a =>
      dsimp only at hnone
      by_cases hdur : a.VideoSpec.DurationSec ≤ 0
      · rw [if_pos hdur] at hnone; cases hnone
      · rw [if_neg hdur] at hnone
        cases pinfoRes with
        | error e => cases hnone
        | ok p =>
          dsimp only at hnone
          by_cases hurl : hlsUrl p = ""
          · rw [if_pos hurl] at hnone; cases hnone
          · rw [if_neg hurl] at hnone
            cases statsRes with
            | error e => cases hnone
            | ok st =>
              dsimp only at hnone
              by_cases hlen : st.SegmentsNum.length ≤ 1
              · rw [if_pos hlen] at hnone; cases hnone
              · refine ⟨a, p, st, rfl, not_le.mp hdur, rfl, ?_, rfl, not_le.mp hlen⟩
                rw [hlsUrl] at hurl
                rcases hfind : p.Source.find?
                    (fun src => src.SrcType == playbackInfoSourceTypeHLS) with - | src
                · rw [hfind] at hurl; exact absurd rfl hurl
                · exact ⟨src, List.mem_of_find?_eq_some hfind,
                    by simpa using List.find?_some hfind⟩

/-- Witness for `claim_C6_checkPlayback_errors` at concrete inputs. -/
theorem claim_C6_checkPlayback_witness :
    ((Except.ok ⟨⟨0⟩, "pb"⟩ : Except String Asset) = .ok ⟨⟨0⟩, "pb"⟩ ∧
      (⟨⟨0⟩, "pb"⟩ : Asset).VideoSpec.DurationSec ≤ 0 ∧
      checkPlayback (.ok ⟨⟨0⟩, "pb"⟩) (.ok ⟨[]⟩) (.ok ⟨[]⟩) =
        some CheckErr.noDuration) ∧
    (0 < (⟨⟨2⟩, "pb"⟩ : Asset).VideoSpec.DurationSec ∧
      (∀ src ∈ (⟨[⟨"video/mp4", "u"⟩]⟩ : PlaybackInfo).Source,
        src.SrcType ≠ playbackInfoSourceTypeHLS) ∧
      checkPlayback (.ok ⟨⟨2⟩, "pb"⟩) (.ok ⟨[⟨"video/mp4", "u"⟩]⟩) (.ok ⟨[]⟩) =
        some CheckErr.noStreamingSource) ∧
    (hlsUrl ⟨[⟨playbackInfoSourceTypeHLS, "u"⟩]⟩ ≠ "" ∧
      (⟨[1]⟩ : M3u8Stats).SegmentsNum.length ≤ 1 ∧
      checkPlayback (.ok ⟨⟨2⟩, "pb"⟩) (.ok ⟨[⟨playbackInfoSourceTypeHLS, "u"⟩]⟩)
        (.ok ⟨[1]⟩) = some CheckErr.insufficientRenditions) :=
  ⟨⟨rfl, le_refl 0,
    (claim_C6_checkPlayback_errors _ _ _).1 ⟨⟨0⟩, "pb"⟩ rfl (le_refl 0)⟩,
   ⟨by norm_num, by decide,
    (claim_C6_checkPlayback_errors _ _ _).2.1 ⟨⟨2⟩, "pb"⟩ ⟨[⟨"video/mp4", "u"⟩]⟩
      rfl (by norm_num) rfl (by decide)⟩,
   ⟨by decide, by decide,
    (claim_C6_checkPlayback_errors _ _ _).2.2.1 ⟨⟨2⟩, "pb"⟩
      ⟨[⟨playbackInfoSourceTypeHLS, "u"⟩]⟩ ⟨[1]⟩ rfl (by norm_num) rfl
      (by decide) rfl (by decide)⟩⟩

/-! ### `patchURLHost` (lines 289–310) -/

/-- First occurrence of `sep` in a character list: `some (before, after)` such
that `before ++ sep ++ after` is the input. -/
def splitOnSeq (sep : List Char) : List Char → Option (List Char × List Char)
  | [] => none
  | c :: cs =>
    if sep.isPrefixOf (c :: cs) then some ([], (c :: cs).drop sep.length)
    else
      match splitOnSeq sep cs with
      | none => none
      | some (a, b) => some (c :: a, b)

lemma splitOnSeq_eq (sep : List Char) :
    ∀ l a b, splitOnSeq sep l = some (a, b) → a ++ (sep ++ b) = l := by
  intro l
  induction l with
  | nil => intro a b h; cases h
  | cons c cs ih =>
    intro a b h
    rw [splitOnSeq] at h
    by_cases hp : sep.isPrefixOf (c :: cs)
    · rw [if_pos hp] at h
      obtain ⟨t, ht⟩ := List.isPrefixOf_iff_prefix.mp hp
      cases h
      rw [List.nil_append, ← ht, List.drop_left]
    · rw [if_neg hp] at h
      cases hs : splitOnSeq sep cs with
      | none => rw [hs] at h; cases h
      | some ab =>
        obtain ⟨a', b'⟩ := ab
        rw [hs] at h
        cases h
        rw [List.cons_append, ih _ _ hs]

/-- The components of a parsed URL that `patchURLHost` manipulates: `Rest` is
the path and everything after the host, with its leading `/`. -/
structure URL where
  Scheme : String
  Host : String
  Rest : String
deriving DecidableEq, Repr

/-- Model of `url.Parse` (external `net/url`), simplified to the grammar
`scheme://host[/rest]`: the scheme is everything before the first `"://"`
(parse fails when `"://"` is absent or the scheme is empty — Go's
`missing protocol scheme` error), the host runs to the next `/`, and the rest
is everything after the host.  Go accepts some further shapes (relative and
opaque URLs) that are outside this model. -/
def parseURL (s : String) : Option URL :=
  match splitOnSeq ("://".data) s.data with
  | none => none
  | some (sch, rest) =>
    if sch.isEmpty then none
    else some ⟨⟨sch⟩, ⟨rest.takeWhile (· ≠ '/')⟩, ⟨rest.dropWhile (· ≠ '/')⟩⟩

/-- `URL.String()` in the model: reassemble the three components. -/
def URL.render (u : URL) : String :=
  u.Scheme ++ "://" ++ u.Host ++ u.Rest

/-- Parsing is left inverse to rendering on the model's grammar: whatever
`parseURL` accepts renders back to the original string. -/
lemma parseURL_render {s : String} {u : URL} (h : parseURL s = some u) :
    u.render = s := by
  rw [parseURL] at h
  rcases hs : splitOnSeq ("://".data) s.data with _ | ⟨sch, rest⟩
  · rw [hs] at h; cases h
  · rw [hs] at h
    dsimp only at h
    by_cases he : sch.isEmpty
    · rw [if_pos he] at h; cases h
    · rw [if_neg he] at h
      cases h
      apply String.ext
      show (⟨sch⟩ ++ "://" ++ ⟨rest.takeWhile (· ≠ '/')⟩ ++
        ⟨rest.dropWhile (· ≠ '/')⟩ : String).data = s.data
      rw [String.data_append, String.data_append, String.data_append]
      show sch ++ "://".data ++ rest.takeWhile (· ≠ '/') ++ rest.dropWhile (· ≠ '/') = s.data
      rw [List.append_assoc, List.takeWhile_append_dropWhile, List.append_assoc]
      exact splitOnSeq_eq _ s.data sch rest hs

/-- Contiguous-substring test, the model of `strings.Contains` (external). -/
def isSeqInfix (needle : List Char) : List Char → Bool
  | [] => needle.isEmpty
  | c :: t => needle.isPrefixOf (c :: t) || isSeqInfix needle t

/-- `strings.Contains(haystack, needle)`. -/
def goContains (haystack needle : String) : Bool :=
  isSeqInfix needle.data haystack.data

/-- `patchURLHost`, `vodtester_app.go` lines 289–310: patch the target URL
with the source URL's scheme and host, unless either fails to parse or the
target's host already contains the source's host. -/
def patchURLHost (target src : String) : String :=
  match parseURL target with
  | none => target
  | some targetURL =>
    match parseURL src with
    | none => target
    | some srcURL =>
      if goContains targetURL.Host srcURL.Host then targetURL.render
      else (URL.mk srcURL.Scheme srcURL.Host targetURL.Rest).render

/-- C9: `patchURLHost` returns the target unchanged when either URL fails to
parse or the target's host already contains the source's host, and otherwise
returns the target with its scheme and host replaced by the source's, the
rest of the target untouched. -/
theorem claim_C9_patchURLHost_contract (target src : String) :
    (parseURL target = none → patchURLHost target src = target) ∧
    (parseURL src = none → patchURLHost target src = target) ∧
    (∀ t s, parseURL target = some t → parseURL src = some s →
      goContains t.Host s.Host = true → patchURLHost target src = target) ∧
    (∀ t s, parseURL target = some t → parseURL src = some s →
      goContains t.Host s.Host = false →
      patchURLHost target src = s.Scheme ++ "://" ++ s.Host ++ t.Rest) := by
  refine ⟨?_, ?_, ?_, ?_⟩
  · intro h
    rw [patchURLHost, h]
  · intro h
    rw [patchURLHost, h]
    rcases parseURL target with - | t <;> rfl
  · intro t s ht hs hc
    rw [patchURLHost, ht, hs]
    dsimp only
    rw [hc, if_pos rfl]
    exact parseURL_render ht
  · intro t s ht hs hc
    rw [patchURLHost, ht, hs]
    dsimp only
    rw [hc, if_neg (by simp)]
    rfl

/-- Witness for `claim_C9_patchURLHost_contract` at concrete URLs. -/
theorem claim_C9_patchURLHost_witness :
    (parseURL "no scheme here" = none ∧
      patchURLHost "no scheme here" "https://x.y" = "no scheme here") ∧
    (parseURL "relative/path" = none ∧
      patchURLHost "http://a.b/c" "relative/path" = "http://a.b/c") ∧
    (parseURL "http://origin.a.b/c" = some ⟨"http", "origin.a.b", "/c"⟩ ∧
      parseURL "https://a.b" = some ⟨"https", "a.b", ""⟩ ∧
      goContains (URL.Host ⟨"http", "origin.a.b", "/c"⟩)
        (URL.Host ⟨"https", "a.b", ""⟩) = true ∧
      patchURLHost "http://origin.a.b/c" "https://a.b" = "http://origin.a.b/c") ∧
    (goContains (URL.Host ⟨"http", "a.b", "/c"⟩) (URL.Host ⟨"https", "x.y", ""⟩) = false ∧
      patchURLHost "http://a.b/c" "https://x.y" = "https" ++ "://" ++ "x.y" ++ "/c") :=
  ⟨⟨by decide, (claim_C9_patchURLHost_contract "no scheme here" "https://x.y").1 (by decide)⟩,
   ⟨by decide, (claim_C9_patchURLHost_contract "http://a.b/c" "relative/path").2.1 (by decide)⟩,
   ⟨by decide, by decide, by decide,
    (claim_C9_patchURLHost_contract "http://origin.a.b/c" "https://a.b").2.2.1
      ⟨"http", "origin.a.b", "/c"⟩ ⟨"https", "a.b", ""⟩ (by decide) (by decide) (by decide)⟩,
   ⟨by decide,
    (claim_C9_patchURLHost_contract "http://a.b/c" "https://x.y").2.2.2
      ⟨"http", "a.b", "/c"⟩ ⟨"https", "x.y", ""⟩ (by decide) (by decide) (by decide)⟩⟩

end Vod
